import Mathlib

deriving instance DecidableEq for Except

/-!
Shallow embedding of the `OrdinalTest` class of `kwtest.py` (Kruskal-Wallis
omnibus test with a Conover-Iman post-hoc stage).

Conventions of the embedding:
* Python ints are `ℤ`, Python floats produced by true division are `ℚ`
  (every arithmetic operation performed by the program is exact on rationals).
* Python dicts with string or int keys are association lists; `dictGet`
  is `d[k]` returning `Option` (a `none` models a `KeyError`).
* The evaluator object is the structure `OrdinalTest`; an attribute that
  `__init__` does not set is an `Option` field that starts as `none`
  (`hasattr` is `isSome`; reading an absent attribute raises
  `AttributeError`, modelled by `PyError.attrMissing`).
* The methods `kruskal_wallis` and `conover_iman` mutate the instance and
  may raise, so they are embedded as
  `OrdinalTest → ... → Except PyError Unit × OrdinalTest`,
  returning the outcome together with the post-call state (Python leaves
  partial mutations in place when an exception is raised mid-method, and so
  does the embedding).
* The calls into `scipy.stats` (`chi2.ppf`, `chi2.cdf`, `t.ppf`, `t.cdf`)
  are external library functions, passed as function parameters of type
  `ℚ → ℤ → ℚ` (argument, degrees of freedom).
* `get_group_indices` builds, for every group key, a *generator expression*
  `(i for i, value in enumerate(group_values) if value == group)`.
  These are modelled by `PyGen`.  Two operational facts about CPython
  generators matter and are preserved: `len()` applied to a generator raises
  `TypeError` (`pyLenGen`), and the genexp closes over the comprehension
  variable `group` by reference, so a generator consumed after the dict
  comprehension has finished filters with the *final* element of the group
  registry (the `cell` field below).
-/

/-- Errors the program can raise.  `noData` is the
ValueError "No data provided"; `sequencing` is the ValueError
"Must have rejected null hypothesis from Kruskal-Wallis test ...";
`typeError` is the TypeError raised by `len()` on a generator;
`keyError` / `attrMissing` model KeyError and AttributeError. -/
inductive PyError where
  | noData
  | sequencing
  | typeError
  | keyError
  | attrMissing
deriving DecidableEq

/-- Model of one generator expression produced by `get_group_indices`:
`enum` is the eagerly evaluated `enumerate(group_values)` (pairs of position
and group label) and `cell` is the value the late-bound comprehension
variable `group` holds once the dict comprehension has finished, namely the
last element of the group registry. -/
structure PyGen where
  enum : List (ℕ × String)
  cell : Option String
deriving DecidableEq

/-- The indices a generator of `get_group_indices` yields if it is consumed
after the comprehension has completed: because of the late binding of the
comprehension variable, it filters with `cell`, the final registry entry --
not with the key it is stored under. -/
def genYields (g : PyGen) : List ℕ :=
  (g.enum.filter (fun p => g.cell == some p.2)).map (fun p => p.1)

/-- Python `len()` applied to a generator object: always a TypeError. -/
def pyLenGen (_ : PyGen) : Except PyError ℕ :=
  .error .typeError

/-- Dictionary access `d[k]` on an association list (`none` = KeyError).
All dicts built by the program have pairwise distinct keys, so first-match
lookup agrees with Python's last-write-wins semantics. -/
def dictGet {α β : Type} [DecidableEq α] : List (α × β) → α → Option β
  | [], _ => none
  | (k, v) :: rest, i => if k = i then some v else dictGet rest i

/-- Attribute access `self.x` for an attribute that may not have been set. -/
def pyAttr {α : Type} : Option α → Except PyError α
  | none => .error .attrMissing
  | some a => .ok a

/-- Dictionary access that raises `KeyError` when the key is absent. -/
def pyKey {α : Type} : Option α → Except PyError α
  | none => .error .keyError
  | some a => .ok a

/-- The string "Null hypothesis rejected" stored in `self.outcome`. -/
def rejectedMsg : String := "Null hypothesis rejected"

/-- The string "Null hypothesis not rejected" stored in `self.outcome`. -/
def notRejectedMsg : String := "Null hypothesis not rejected"

/-- One per-pair result record of the Conover-Iman loop.  The source stores
the records as a dict of parallel lists (`self.conover_results`); a list of
records carries the same information in the same pair order. -/
structure ConoverRecord where
  Ri : String
  Rj : String
  degf : ℤ
  t_value : ℚ
  critical_value : ℚ
  p_value : ℚ
  outcome : String
deriving DecidableEq

/-- The `OrdinalTest` instance state.  `__init__` sets nothing, so every
field starts as `none`.  `data` holds the pair (groups, values) stored by
`add_data`; `groups` is `list(set(groups))`, the group registry. -/
structure OrdinalTest where
  data : Option (List String × List ℤ)
  groups : Option (List String)
  alpha : Option ℚ
  group_indices : Option (List (String × PyGen))
  value_ranks : Option (List ℚ)
  group_counts : Option (List (String × ℕ))
  group_means : Option (List (String × ℚ))
  degf : Option ℤ
  h_value : Option ℚ
  critical_value : Option ℚ
  p_value : Option ℚ
  outcome : Option String
  conover_results : Option (List ConoverRecord)
deriving DecidableEq

/-- A freshly constructed `OrdinalTest()`: no attribute set. -/
def initState : OrdinalTest :=
  ⟨none, none, none, none, none, none, none, none, none, none, none, none, none⟩

/-- `add_data`: stores the observation set and derives the group registry
`self.groups = list(set(groups))`.  CPython's set iteration order is
unspecified; the embedding fixes the order produced by `List.dedup`
(which keeps the last occurrence of each label).  No theorem below depends
on the registry order except through concrete evaluation, and the facts
evaluated hold under any registry order. -/
def add_data (t : OrdinalTest) (groups : List String) (values : List ℤ) : OrdinalTest :=
  { t with data := some (groups, values), groups := some groups.dedup }

/-- Python's `sorted(indexed_numbers, key=lambda x: x[1])`: a stable sort of
the (position, value) pairs by value.  Insertion sort with the non-strict
comparison on the key computes exactly the stable-sort-by-key function. -/
def pySorted (l : List (ℕ × ℤ)) : List (ℕ × ℤ) :=
  List.insertionSort (fun a b => a.2 ≤ b.2) l

/-- The while-loop of `get_ranks`: starting at sorted position `i`
(0-based), split off the maximal run of pairs equal to the current value
(the inner `while` over `j`), give every member of the run the average
`sum(range(i + 1, j + 1)) / len(run)` of the 1-based ranks the run covers,
and continue after the run.  The result is the `ranks` dict as an
association list from original position to rank. -/
def processRuns : List (ℕ × ℤ) → ℕ → List (ℕ × ℚ)
  | [], _ => []
  | (idx, v) :: rest, i =>
    let runTail := rest.takeWhile (fun p => p.2 == v)
    let rest' := rest.dropWhile (fun p => p.2 == v)
    let L := runTail.length + 1
    let avg : ℚ := (((List.range' (i + 1) L).sum : ℕ) : ℚ) / (L : ℚ)
    ((idx, v) :: runTail).map (fun p => (p.1, avg)) ++ processRuns rest' (i + L)
termination_by l _ => l.length
decreasing_by
  simp only [List.length_cons]
  exact Nat.lt_succ_of_le (List.Sublist.length_le (List.dropWhile_sublist _))

/-- `get_ranks` on the stored value sequence: enumerate, sort stably by
value, assign midranks run by run, and read the dict back in original
position order (`[ranks[i] for i in range(len(ordinal_values))]`).
Every original position is a key of the dict (proved below), so the
`getD 0` default is never consulted and `KeyError` cannot occur. -/
def get_ranks (values : List ℤ) : List ℚ :=
  let sorted_pairs := pySorted values.enum
  let ranks := processRuns sorted_pairs 0
  (List.range values.length).map (fun i => (dictGet ranks i).getD 0)

/-- `get_group_indices`: a dict comprehension mapping every registry group
to a generator expression over `enumerate(group_values)`.  Each generator
eagerly captures the enumeration and shares the late-bound comprehension
variable, which ends up holding the registry's last element. -/
def get_group_indices (group_values : List String) (groups : List String) :
    List (String × PyGen) :=
  groups.map (fun g => (g, ⟨group_values.enum, groups.getLast?⟩))

/-- `get_group_counts`: `{group: len(group_indices[group]) for group in
self.groups}`.  `len` of a generator raises TypeError, so this raises on
the first group of a non-empty registry. -/
def get_group_counts : List String → List (String × PyGen) →
    Except PyError (List (String × ℕ))
  | [], _ => .ok []
  | g :: tl, gi =>
    match dictGet gi g with
    | none => .error .keyError
    | some p =>
      match pyLenGen p with
      | .error e => .error e
      | .ok c =>
        match get_group_counts tl gi with
        | .error e => .error e
        | .ok rest => .ok ((g, c) :: rest)

/-- Membership test `i in gen` on a generator with remaining yield list
`st`: the `in` operator consumes elements until it finds `i` (returning the
suffix after it) or exhausts the generator. -/
def genMember : List ℕ → ℕ → Bool × List ℕ
  | [], _ => (false, [])
  | y :: rest, i => if y = i then (true, rest) else genMember rest i

/-- The comprehension `sum([value for i, value in enumerate(value_ranks)
if i in group_indices[group]])`: successive membership tests against one
(stateful) generator, threading the generator's remaining yields. -/
def sumRanksGen : List ℚ → ℕ → List ℕ → ℚ
  | [], _, _ => 0
  | r :: rs, i, st =>
    let q := genMember st i
    (if q.1 then r else 0) + sumRanksGen rs (i + 1) q.2

/-- `get_group_means`: per-group mean rank.  The group count divisor is at
least 1 for every registry key when the registry is derived from the labels
(so Python's ZeroDivisionError cannot occur there), and both dict lookups
use keys present by construction; this code is in any case unreachable for
a non-empty registry because `get_group_counts` raises first. -/
def get_group_means (groups : List String) (group_indices : List (String × PyGen))
    (group_counts : List (String × ℕ)) (value_ranks : List ℚ) :
    List (String × ℚ) :=
  groups.map (fun g =>
    (g, sumRanksGen value_ranks 0 (genYields ((dictGet group_indices g).getD ⟨[], none⟩)) /
      (((dictGet group_counts g).getD 0 : ℕ) : ℚ)))

/-- `calculate_kw_h`: `a = (n_cases - 1) / 12`, `b` the sum over the
registry of `n_g * (M_g - expected_rank) ** 2 / variance`, result `a * b`. -/
def calculate_kw_h (groups : List String) (n_cases : ℕ)
    (group_means : List (String × ℚ)) (group_counts : List (String × ℕ))
    (expected_rank variance : ℚ) : ℚ :=
  let a : ℚ := ((n_cases : ℚ) - 1) / 12
  let b : ℚ := (groups.map (fun g =>
    (((dictGet group_counts g).getD 0 : ℕ) : ℚ) *
      ((dictGet group_means g).getD 0 - expected_rank) ^ 2 / variance)).sum
  a * b

/-- `kruskal_wallis(alpha)`: raises the ValueError "No data provided" when
no observation set was supplied; otherwise stores `alpha`, the group index
generators and the value ranks, then derives counts, means, H, the
chi-square critical value and p-value, and the outcome string.
`chi2ppf` and `chi2cdf` are the external `scipy.stats.chi2` calls.
The returned state reflects exactly the attributes assigned before a raise:
`get_group_counts` raises TypeError on any non-empty registry, at which
point `alpha`, `group_indices` and `value_ranks` have already been set. -/
def kruskal_wallis (t : OrdinalTest) (alpha : ℚ) (chi2ppf chi2cdf : ℚ → ℤ → ℚ) :
    Except PyError Unit × OrdinalTest :=
  match t.data with
  | none => (.error .noData, t)
  | some (group_labels, values) =>
    let t1 := { t with alpha := some alpha }
    match t1.groups with
    | none => (.error .attrMissing, t1)
    | some reg =>
      let gi := get_group_indices group_labels reg
      let t2 := { t1 with group_indices := some gi }
      let ranks := get_ranks values
      let t3 := { t2 with value_ranks := some ranks }
      match get_group_counts reg gi with
      | .error e => (.error e, t3)
      | .ok counts =>
        let t4 := { t3 with group_counts := some counts }
        let means := get_group_means reg gi counts ranks
        let t5 := { t4 with group_means := some means }
        let n_cases := values.length
        let expected_rank : ℚ := ((n_cases : ℚ) + 1) / 2
        let variance : ℚ := ((n_cases : ℚ) ^ 2 - 1) / 12
        let degf : ℤ := (reg.length : ℤ) - 1
        let h_value := calculate_kw_h reg n_cases means counts expected_rank variance
        let critical_value := chi2ppf (1 - alpha) degf
        let p_value := 1 - chi2cdf h_value degf
        let outcome := if h_value ≥ critical_value then rejectedMsg else notRejectedMsg
        let t6 := { t5 with degf := some degf, h_value := some h_value,
                            critical_value := some critical_value, p_value := some p_value,
                            outcome := some outcome }
        (.ok (), t6)

/-- `itertools.combinations(groups, 2)` in its enumeration order. -/
def combinations2 : List String → List (String × String)
  | [] => []
  | x :: rest => rest.map (fun y => (x, y)) ++ combinations2 rest

/-- One iteration of the Conover-Iman loop for the pair `(Ri, Rj)`.
`n_i = len(self.group_indices[Ri])` raises TypeError (len of a generator),
so the record computation never completes; the remaining arithmetic is the
source's `s2`, `se`, `t_value`, `degf`, critical value, p-value and outcome
(with `tppf`/`tcdf` the external `scipy.stats.t` calls). -/
def conover_record (t : OrdinalTest) (h_value : ℚ) (k : ℤ) (R : ℚ)
    (tppf tcdf : ℚ → ℤ → ℚ) (pair : String × String) :
    Except PyError ConoverRecord :=
  match t.group_indices with
  | none => .error .attrMissing
  | some gis =>
    match dictGet gis pair.1 with
    | none => .error .keyError
    | some genI =>
      match pyLenGen genI with
      | .error e => .error e
      | .ok n_i =>
        match dictGet gis pair.2 with
        | none => .error .keyError
        | some genJ =>
          match pyLenGen genJ with
          | .error e => .error e
          | .ok n_j =>
            let n : ℕ := n_i + n_j
            match t.group_means with
            | none => .error .attrMissing
            | some means =>
              match dictGet means pair.1 with
              | none => .error .keyError
              | some m_i =>
                match dictGet means pair.2 with
                | none => .error .keyError
                | some m_j =>
                  let diff := |m_i - m_j|
                  let s2 : ℚ := 1 / ((n : ℚ) - 1) * (R - (n : ℚ) * ((n : ℚ) + 1) ^ 2 / 4)
                  let se : ℚ := s2 * (((n : ℚ) - 1 - h_value) / ((n : ℚ) - (k : ℚ))) *
                    (1 / (n_i : ℚ) + 1 / (n_j : ℚ))
                  let t_value := diff / se
                  let degf : ℤ := (n : ℤ) - k
                  match t.alpha with
                  | none => .error .attrMissing
                  | some alpha =>
                    let critical_value := tppf (1 - alpha) degf
                    let p_value := 1 - tcdf t_value degf
                    let outcome := if t_value ≥ critical_value then rejectedMsg else notRejectedMsg
                    .ok ⟨pair.1, pair.2, degf, t_value, critical_value, p_value, outcome⟩

/-- The `for Ri, Rj in list(combinations(self.groups, 2))` loop: one record
appended per completed iteration; an exception mid-iteration keeps the
records of the earlier iterations. -/
def conover_loop (t : OrdinalTest) (h_value : ℚ) (k : ℤ) (R : ℚ)
    (tppf tcdf : ℚ → ℤ → ℚ) :
    List (String × String) → Except PyError Unit × List ConoverRecord
  | [] => (.ok (), [])
  | p :: rest =>
    match conover_record t h_value k R tppf tcdf p with
    | .error e => (.error e, [])
    | .ok r =>
      let res := conover_loop t h_value k R tppf tcdf rest
      (res.1, r :: res.2)

/-- `conover_iman()`: raises the sequencing ValueError when `h_value` was
never set (`hasattr` check) or when the stored outcome is the non-rejection
string; otherwise computes `k`, the pair-independent sum of squared raw
values `R`, initialises `self.conover_results` and runs the pair loop. -/
def conover_iman (t : OrdinalTest) (tppf tcdf : ℚ → ℤ → ℚ) :
    Except PyError Unit × OrdinalTest :=
  match t.h_value with
  | none => (.error .sequencing, t)
  | some h =>
    match t.outcome with
    | none => (.error .attrMissing, t)
    | some oc =>
      if oc = notRejectedMsg then (.error .sequencing, t)
      else
        match t.groups with
        | none => (.error .attrMissing, t)
        | some reg =>
          match t.data with
          | none => (.error .attrMissing, t)
          | some (_, values) =>
            let k : ℤ := (reg.length : ℤ)
            let R : ℚ := (values.map (fun x => ((x ^ 2 : ℤ) : ℚ))).sum
            let t0 := { t with conover_results := some [] }
            let res := conover_loop t h k R tppf tcdf (combinations2 reg)
            (res.1, { t0 with conover_results := some res.2 })

/-!  The spec's intended (generator-free) reading of the group aggregation
pipeline, used to state what the claims about group indices, counts, means
and the H statistic assert.  Each definition realises the index sets as the
lists of positions the spec describes, with everything else taken verbatim
from the source (`get_ranks`, `calculate_kw_h`). -/

/-- Following the spec's words for `get_group_indices`: the positions at
which each registry group occurs, as a realized list per group. -/
def specGroupIndices (labels : List String) : List (String × List ℕ) :=
  labels.dedup.map (fun g => (g, (labels.enum.filter (fun p => p.2 == g)).map (fun p => p.1)))

/-- Following the spec's words for `get_group_counts`: the size of each
group's index set. -/
def specGroupCounts (labels : List String) : List (String × ℕ) :=
  (specGroupIndices labels).map (fun p => (p.1, p.2.length))

/-- The rank vector entry at position `i` (0 past the end, which no caller
reaches: every index set entry is a position of the rank vector). -/
def rankAt : List ℚ → ℕ → ℚ
  | [], _ => 0
  | r :: rs, i => if i = 0 then r else rankAt rs (i - 1)

/-- Following the spec's words for `get_group_means`: the mean of the rank
vector over each group's index set (ranks by the source's `get_ranks`). -/
def specGroupMeans (labels : List String) (values : List ℤ) : List (String × ℚ) :=
  (specGroupIndices labels).map (fun p =>
    (p.1, (p.2.map (fun i => rankAt (get_ranks values) i)).sum / (p.2.length : ℚ)))

/-- The H statistic of the intended pipeline: the source's `calculate_kw_h`
applied to the spec-intended group means and counts, with the source's
`expected_rank = (N + 1) / 2` and `variance = (N ^ 2 - 1) / 12`. -/
def specH (labels : List String) (values : List ℤ) : ℚ :=
  calculate_kw_h labels.dedup values.length (specGroupMeans labels values)
    (specGroupCounts labels) (((values.length : ℚ) + 1) / 2)
    (((values.length : ℚ) ^ 2 - 1) / 12)

/-!  Rank-engine lemmas: the ranks assigned by `processRuns` cover exactly
the original positions, and their total is the sum of the 1-based rank
positions they stand for. -/

/-- Sum of `range(a, a + n)` as a rational, in closed form. -/
theorem sum_range'_cast (a n : ℕ) :
    (((List.range' a n).sum : ℕ) : ℚ) = n * a + n * (n - 1) / 2 := by
  induction n generalizing a with
  | zero => simp
  | succ m ih =>
    rw [List.range'_succ, List.sum_cons]
    push_cast [ih]
    ring

/-- Mapping first components through a constant-rank pair rewrite. -/
theorem map_fst_pairmap (c : ℚ) (l : List (ℕ × ℤ)) :
    (l.map (fun p => (p.1, c))).map Prod.fst = l.map Prod.fst := by
  induction l with
  | nil => simp
  | cons a t ih => simp [ih]

/-- Mapping second components through a constant-rank pair rewrite. -/
theorem map_snd_pairmap (c : ℚ) (l : List (ℕ × ℤ)) :
    (l.map (fun p => (p.1, c))).map Prod.snd = List.replicate l.length c := by
  induction l with
  | nil => simp
  | cons a t ih => simp [ih, List.replicate_succ]

/-- Cast-distributed form of `sum_range'_cast`, as rewritten by `push_cast`. -/
theorem sum_map_cast_range' (a n : ℕ) :
    ((List.range' a n).map (fun x : ℕ => (x : ℚ))).sum = n * a + n * (n - 1) / 2 := by
  rw [← sum_range'_cast a n, Nat.cast_list_sum]

/-- `processRuns` writes a rank for exactly the original positions of its
input, in run order (stated with an explicit recursion bound). -/
theorem processRuns_map_fst_aux (n : ℕ) :
    ∀ (l : List (ℕ × ℤ)), l.length ≤ n → ∀ (i : ℕ),
      (processRuns l i).map Prod.fst = l.map Prod.fst := by
  induction n with
  | zero =>
    intro l hl i
    have hnil : l = [] := List.length_eq_zero.mp (Nat.le_zero.mp hl)
    subst hnil
    simp [processRuns]
  | succ m ih =>
    intro l hl i
    rcases l with _ | ⟨⟨idx, v⟩, rest⟩
    · simp [processRuns]
    · simp only [processRuns, List.map_append]
      have hb : (rest.dropWhile (fun p => p.2 == v)).length ≤ m := by
        have h1 : (rest.dropWhile (fun p => p.2 == v)).length ≤ rest.length :=
          List.Sublist.length_le (List.dropWhile_sublist _)
        have h2 : rest.length + 1 ≤ m + 1 := by simpa using hl
        omega
      rw [map_fst_pairmap, ih _ hb]
      simp only [List.map_cons, List.cons_append]
      rw [← List.map_append, List.takeWhile_append_dropWhile]

/-- `processRuns` writes a rank for exactly the original positions of its
input. -/
theorem processRuns_map_fst (l : List (ℕ × ℤ)) (i : ℕ) :
    (processRuns l i).map Prod.fst = l.map Prod.fst :=
  processRuns_map_fst_aux l.length l le_rfl i

/-- The ranks `processRuns` assigns from 0-based start position `i` sum to
`(i+1) + (i+2) + ... + (i+length)`: each run of length `L` receives `L`
copies of the average of the `L` rank positions it covers (stated with an
explicit recursion bound). -/
theorem processRuns_map_snd_sum_aux (n : ℕ) :
    ∀ (l : List (ℕ × ℤ)), l.length ≤ n → ∀ (i : ℕ),
      ((processRuns l i).map Prod.snd).sum
        = (((List.range' (i + 1) l.length).sum : ℕ) : ℚ) := by
  induction n with
  | zero =>
    intro l hl i
    have hnil : l = [] := List.length_eq_zero.mp (Nat.le_zero.mp hl)
    subst hnil
    simp [processRuns]
  | succ m ih =>
    intro l hl i
    rcases l with _ | ⟨⟨idx, v⟩, rest⟩
    · simp [processRuns]
    · simp only [processRuns, List.map_append, List.sum_append, List.length_cons]
      have hb : (rest.dropWhile (fun p => p.2 == v)).length ≤ m := by
        have h1 : (rest.dropWhile (fun p => p.2 == v)).length ≤ rest.length :=
          List.Sublist.length_le (List.dropWhile_sublist _)
        have h2 : rest.length + 1 ≤ m + 1 := by simpa using hl
        omega
      rw [ih _ hb, map_snd_pairmap, List.sum_replicate, List.length_cons, nsmul_eq_mul]
      have hsplit : rest.length
          = (rest.takeWhile (fun p => p.2 == v)).length
            + (rest.dropWhile (fun p => p.2 == v)).length := by
        have h := congrArg List.length (List.takeWhile_append_dropWhile (fun p => p.2 == v) rest)
        rw [List.length_append] at h
        omega
      rw [hsplit]
      have hcomm : (rest.takeWhile (fun p => p.2 == v)).length
            + (rest.dropWhile (fun p => p.2 == v)).length + 1
          = (rest.dropWhile (fun p => p.2 == v)).length
            + ((rest.takeWhile (fun p => p.2 == v)).length + 1) := by omega
      rw [hcomm]
      conv_rhs => rw [← List.range'_append]
      rw [List.sum_append, Nat.cast_add]
      have harg : i + 1 + 1 * ((rest.takeWhile (fun p => p.2 == v)).length + 1)
          = i + ((rest.takeWhile (fun p => p.2 == v)).length + 1) + 1 := by ring
      rw [harg]
      have hne : (((rest.takeWhile (fun p => p.2 == v)).length : ℚ)) + (1 : ℚ) ≠ 0 := by
        positivity
      push_cast
      field_simp

/-- The ranks `processRuns` assigns from 0-based start position `i` sum to
`(i+1) + (i+2) + ... + (i+length)`. -/
theorem processRuns_map_snd_sum (l : List (ℕ × ℤ)) (i : ℕ) :
    ((processRuns l i).map Prod.snd).sum
      = (((List.range' (i + 1) l.length).sum : ℕ) : ℚ) :=
  processRuns_map_snd_sum_aux l.length l le_rfl i

/-- Summing a function over a key list that is a permutation of an
association list's (pairwise distinct) keys is summing the association
list's values. -/
theorem dictGet_sum (al : List (ℕ × ℚ)) (L : List ℕ)
    (hperm : L.Perm (al.map Prod.fst)) (hnd : (al.map Prod.fst).Nodup) :
    (L.map (fun i => (dictGet al i).getD 0)).sum = (al.map Prod.snd).sum := by
  induction al generalizing L with
  | nil =>
    have hL : L = [] := List.perm_nil.mp (by simpa using hperm)
    subst hL
    simp
  | cons kv t ih =>
    obtain ⟨k, v⟩ := kv
    have hsum : (L.map (fun i => (dictGet ((k, v) :: t) i).getD 0)).sum
        = ((k :: t.map Prod.fst).map (fun i => (dictGet ((k, v) :: t) i).getD 0)).sum :=
      List.Perm.sum_eq (List.Perm.map _ (by simpa using hperm))
    rw [hsum, List.map_cons, List.sum_cons]
    have hnd' : (k :: t.map Prod.fst).Nodup := by simpa using hnd
    have hmem : k ∉ t.map Prod.fst := (List.nodup_cons.mp hnd').1
    have hk : (dictGet ((k, v) :: t) k).getD 0 = v := by simp [dictGet]
    have hcongr : (t.map Prod.fst).map (fun i => (dictGet ((k, v) :: t) i).getD 0)
        = (t.map Prod.fst).map (fun i => (dictGet t i).getD 0) := by
      apply List.map_congr_left
      intro i hi
      have hne : ¬ (k = i) := fun h => hmem (h ▸ hi)
      simp [dictGet, hne]
    rw [hk, hcongr, ih (t.map Prod.fst) (List.Perm.refl _) (List.nodup_cons.mp hnd').2]
    simp

/-- The ranks returned by `get_ranks` always total `N (N + 1) / 2`. -/
theorem get_ranks_sum (values : List ℤ) :
    (get_ranks values).sum
      = (values.length : ℚ) * ((values.length : ℚ) + 1) / 2 := by
  unfold get_ranks
  have hlen : (pySorted values.enum).length = values.length :=
    (List.Perm.length_eq (List.perm_insertionSort _ _)).trans List.enum_length
  have hpermkeys : (List.range values.length).Perm
      ((processRuns (pySorted values.enum) 0).map Prod.fst) := by
    rw [processRuns_map_fst]
    have h1 : ((pySorted values.enum).map Prod.fst).Perm (values.enum.map Prod.fst) :=
      List.Perm.map _ (List.perm_insertionSort _ _)
    rw [List.enum_map_fst] at h1
    exact h1.symm
  have hnd : (((processRuns (pySorted values.enum) 0)).map Prod.fst).Nodup :=
    List.Perm.nodup hpermkeys (List.nodup_range _)
  rw [dictGet_sum (processRuns (pySorted values.enum) 0) (List.range values.length)
    hpermkeys hnd]
  rw [processRuns_map_snd_sum, hlen]
  rw [show (0 : ℕ) + 1 = 1 from rfl, sum_range'_cast]
  push_cast
  ring

/-!  Error-flow lemmas: the only errors `get_group_counts` can produce are
KeyError and TypeError, and the Conover-Iman pair loop can never produce
the sequencing error (its checks run before the loop). -/

/-- An error coming out of `get_group_counts` is never the missing-data
error. -/
theorem get_group_counts_error_ne (reg : List String) (gi : List (String × PyGen))
    (e : PyError) (h : get_group_counts reg gi = .error e) : e ≠ PyError.noData := by
  cases reg with
  | nil => simp [get_group_counts] at h
  | cons g tl =>
    revert h
    simp only [get_group_counts, pyLenGen]
    cases dictGet gi g with
    | none =>
      intro h
      injection h with h2
      subst h2
      decide
    | some p =>
      intro h
      injection h with h2
      subst h2
      decide

/-- An error coming out of a Conover-Iman pair-record computation is never
the sequencing error. -/
theorem conover_record_error_ne (t : OrdinalTest) (hv : ℚ) (k : ℤ) (R : ℚ)
    (tppf tcdf : ℚ → ℤ → ℚ) (pair : String × String) (e : PyError)
    (hrec : conover_record t hv k R tppf tcdf pair = .error e) : e ≠ PyError.sequencing := by
  simp only [conover_record, pyLenGen] at hrec
  cases hgi : t.group_indices with
  | none =>
    rw [hgi] at hrec
    dsimp only at hrec
    injection hrec with h2
    subst h2
    decide
  | some gis =>
    rw [hgi] at hrec
    dsimp only at hrec
    cases hdg : dictGet gis pair.1 with
    | none =>
      rw [hdg] at hrec
      dsimp only at hrec
      injection hrec with h2
      subst h2
      decide
    | some genI =>
      rw [hdg] at hrec
      dsimp only at hrec
      injection hrec with h2
      subst h2
      decide

/-- The Conover-Iman pair loop never reports the sequencing error. -/
theorem conover_loop_fst_ne_sequencing (t : OrdinalTest) (hv : ℚ) (k : ℤ) (R : ℚ)
    (tppf tcdf : ℚ → ℤ → ℚ) (pairs : List (String × String)) :
    (conover_loop t hv k R tppf tcdf pairs).1 ≠ Except.error PyError.sequencing := by
  induction pairs with
  | nil => simp [conover_loop]
  | cons p rest ih =>
    simp only [conover_loop]
    cases hrec : conover_record t hv k R tppf tcdf p with
    | error e =>
      simp only []
      intro hcontra
      injection hcontra with h2
      exact conover_record_error_ne t hv k R tppf tcdf p e hrec h2
    | ok r =>
      simpa using ih

/-- C5: `kruskal_wallis` raises the missing-data error exactly when no
observation set was supplied, and leaves the state untouched in that case;
`conover_iman` raises the sequencing error exactly when the Kruskal-Wallis
test was never evaluated (no stored `h_value`) or its stored outcome is the
non-rejection string, and leaves the state untouched in that case.  The
hypothesis on the second part restricts to states where a stored `h_value`
comes with a stored outcome, which holds of every state the class can
produce, since `kruskal_wallis` assigns both in the same run. -/
theorem C5_error_discipline :
    (∀ (t : OrdinalTest) (a : ℚ) (f g : ℚ → ℤ → ℚ),
      ((kruskal_wallis t a f g).1 = Except.error PyError.noData ↔ t.data = none) ∧
      ((kruskal_wallis t a f g).1 = Except.error PyError.noData →
        (kruskal_wallis t a f g).2 = t)) ∧
    (∀ (t : OrdinalTest) (f g : ℚ → ℤ → ℚ),
      (t.h_value.isSome → t.outcome.isSome) →
      (((conover_iman t f g).1 = Except.error PyError.sequencing ↔
          (t.h_value = none ∨ t.outcome = some notRejectedMsg)) ∧
        ((conover_iman t f g).1 = Except.error PyError.sequencing →
          (conover_iman t f g).2 = t))) := by
  constructor
  · intro t a f g
    cases hd : t.data with
    | none => simp [kruskal_wallis, hd]
    | some lv =>
      obtain ⟨labs, vals⟩ := lv
      cases hg : t.groups with
      | none => simp [kruskal_wallis, hd, hg]
      | some reg =>
        cases hc : get_group_counts reg (get_group_indices labs reg) with
        | error e =>
          have hne : e ≠ PyError.noData := get_group_counts_error_ne reg _ e hc
          simp [kruskal_wallis, hd, hg, hc, hne]
        | ok counts => simp [kruskal_wallis, hd, hg, hc]
  · intro t f g hinv
    cases hh : t.h_value with
    | none => simp [conover_iman, hh]
    | some hv =>
      have hoc : t.outcome.isSome := hinv (by simp [hh])
      obtain ⟨oc, hocs⟩ := Option.isSome_iff_exists.mp hoc
      by_cases hrej : oc = notRejectedMsg
      · subst hrej
        simp [conover_iman, hh, hocs]
      · cases hgr : t.groups with
        | none => simp [conover_iman, hh, hocs, hrej, hgr]
        | some reg =>
          cases hdt : t.data with
          | none => simp [conover_iman, hh, hocs, hrej, hgr, hdt]
          | some lv =>
            obtain ⟨labs, vals⟩ := lv
            have hres := conover_loop_fst_ne_sequencing t hv (reg.length : ℤ)
              ((vals.map (fun x => ((x ^ 2 : ℤ) : ℚ))).sum) f g (combinations2 reg)
            push_cast at hres
            simp [conover_iman, hh, hocs, hrej, hgr, hdt, hres]

/-- Witness for C5 at the freshly constructed evaluator. -/
theorem C5_error_discipline_witness :
    ((kruskal_wallis initState (1/20) (fun _ _ => 0) (fun _ _ => 0)).1
        = Except.error PyError.noData ↔ initState.data = none) ∧
    ((conover_iman initState (fun _ _ => 0) (fun _ _ => 0)).1
        = Except.error PyError.sequencing ↔
      (initState.h_value = none ∨ initState.outcome = some notRejectedMsg)) :=
  ⟨(C5_error_discipline.1 initState (1/20) (fun _ _ => 0) (fun _ _ => 0)).1,
   (C5_error_discipline.2 initState (fun _ _ => 0) (fun _ _ => 0) (by decide)).1⟩

/-!  Concrete evaluations of the rank engine and of the intended
(generator-free) pipeline, used by the per-claim theorems below. -/

/-- Ranks of the strictly increasing sequence 1..6. -/
theorem ranks_eval_six : get_ranks [1, 2, 3, 4, 5, 6] = [1, 2, 3, 4, 5, 6] := by
  norm_num [show List.range 6 = [0,1,2,3,4,5] from by decide, get_ranks, processRuns,
    pySorted, List.insertionSort, List.orderedInsert, dictGet, sum_range'_cast,
    sum_map_cast_range']

/-- Ranks of the all-tied sequence [5,5,5,5]: every rank is (N+1)/2. -/
theorem ranks_eval_tied : get_ranks [5, 5, 5, 5] = [5/2, 5/2, 5/2, 5/2] := by
  norm_num [show List.range 4 = [0,1,2,3] from by decide, get_ranks, processRuns,
    pySorted, List.insertionSort, List.orderedInsert, dictGet, sum_range'_cast,
    sum_map_cast_range']

/-- Ranks of 1..3. -/
theorem ranks_eval_three : get_ranks [1, 2, 3] = [1, 2, 3] := by
  norm_num [show List.range 3 = [0,1,2] from by decide, get_ranks, processRuns,
    pySorted, List.insertionSort, List.orderedInsert, dictGet, sum_range'_cast,
    sum_map_cast_range']

/-- Ranks of [3,3,5,7]: the tied pair gets midrank 3/2. -/
theorem ranks_eval_perm_a : get_ranks [3, 3, 5, 7] = [3/2, 3/2, 3, 4] := by
  norm_num [show List.range 4 = [0,1,2,3] from by decide, get_ranks, processRuns,
    pySorted, List.insertionSort, List.orderedInsert, dictGet, sum_range'_cast,
    sum_map_cast_range']

/-- Ranks of [7,5,3,3], the reversal of [3,3,5,7]. -/
theorem ranks_eval_perm_b : get_ranks [7, 5, 3, 3] = [4, 3, 3/2, 3/2] := by
  norm_num [show List.range 4 = [0,1,2,3] from by decide, get_ranks, processRuns,
    pySorted, List.insertionSort, List.orderedInsert, dictGet, sum_range'_cast,
    sum_map_cast_range']

/-- Intended group index sets of the two-group scenario. -/
theorem sgi_eval_six :
    specGroupIndices ["A","A","A","B","B","B"] = [("A", [0,1,2]), ("B", [3,4,5])] := by
  decide

/-- The intended H of the spec's two-group scenario is 27/14, not 4.5714...:
the spec formula `(N-1)/12 * Σ n_g (M_g - E)^2 / V` gives
`(5/12) * (81/35 + 81/35) = 27/14`. -/
theorem specH_eval_six : specH ["A","A","A","B","B","B"] [1,2,3,4,5,6] = 27/14 := by
  simp only [specH, specGroupMeans, specGroupCounts, calculate_kw_h, sgi_eval_six,
    ranks_eval_six,
    show (["A","A","A","B","B","B"] : List String).dedup = ["A","B"] from by decide]
  simp [rankAt, dictGet]
  norm_num

/-- Intended group mean ranks of the two-group scenario. -/
theorem specMeans_eval_six :
    specGroupMeans ["A","A","A","B","B","B"] [1,2,3,4,5,6] = [("A", 2), ("B", 5)] := by
  simp only [specGroupMeans, sgi_eval_six, ranks_eval_six]
  norm_num [rankAt]

/-- Intended H of the three-singleton-group scenario. -/
theorem specH_eval_three : specH ["A","B","C"] [1,2,3] = 1/2 := by
  simp only [specH, specGroupMeans, specGroupCounts, calculate_kw_h,
    show specGroupIndices ["A","B","C"] = [("A", [0]), ("B", [1]), ("C", [2])] from by decide,
    ranks_eval_three,
    show (["A","B","C"] : List String).dedup = ["A","B","C"] from by decide]
  simp [rankAt, dictGet]
  norm_num

/-- Intended H of the all-tied scenario is exactly 0. -/
theorem specH_eval_tied : specH ["A","B","A","B"] [5,5,5,5] = 0 := by
  simp only [specH, specGroupMeans, specGroupCounts, calculate_kw_h,
    show specGroupIndices ["A","B","A","B"] = [("A", [0,2]), ("B", [1,3])] from by decide,
    ranks_eval_tied,
    show (["A","B","A","B"] : List String).dedup = ["A","B"] from by decide]
  simp [rankAt, dictGet]
  norm_num

/-- Intended H of the tied four-observation scenario [3,3,5,7]. -/
theorem specH_eval_perm_a : specH ["A","B","A","B"] [3,3,5,7] = 1/20 := by
  simp only [specH, specGroupMeans, specGroupCounts, calculate_kw_h,
    show specGroupIndices ["A","B","A","B"] = [("A", [0,2]), ("B", [1,3])] from by decide,
    ranks_eval_perm_a,
    show (["A","B","A","B"] : List String).dedup = ["A","B"] from by decide]
  simp [rankAt, dictGet]
  norm_num

/-- Intended H of the whole-pair reversal of the previous scenario. -/
theorem specH_eval_perm_b : specH ["B","A","B","A"] [7,5,3,3] = 1/20 := by
  simp only [specH, specGroupMeans, specGroupCounts, calculate_kw_h,
    show specGroupIndices ["B","A","B","A"] = [("B", [0,2]), ("A", [1,3])] from by decide,
    ranks_eval_perm_b,
    show (["B","A","B","A"] : List String).dedup = ["B","A"] from by decide]
  simp [rankAt, dictGet]
  norm_num

/-- C1: the spec asserts that once an observation set has been supplied,
`kruskal_wallis` completes normally for any significance level and can
raise only the missing-data error.  In fact, with the spec's own two-group
scenario supplied, the call raises a TypeError: `get_group_indices` builds
generators and `get_group_counts` applies `len()` to one. -/
theorem C1_kruskal_wallis_raises_typeerror :
    (kruskal_wallis (add_data initState ["A","A","A","B","B","B"] [1,2,3,4,5,6]) (1/20)
      (fun _ _ => 0) (fun _ _ => 0)).1 = Except.error PyError.typeError := by
  decide

/-- C2 counterexample: on the spec's concrete scenario neither claimed
outcome holds: the intended H of the formula is 27/14, not 4.5714... =
32/7 (so the claimed outcome "reject" versus the critical value 3.841 is
also wrong, since 27/14 < 3.841), and the `kruskal_wallis` call itself
never emits a result (it raises a TypeError). -/
theorem C2_scenario_counterexample :
    specH ["A","A","A","B","B","B"] [1,2,3,4,5,6] = 27/14 ∧
    specH ["A","A","A","B","B","B"] [1,2,3,4,5,6] ≠ 32/7 ∧
    specH ["A","A","A","B","B","B"] [1,2,3,4,5,6] < 4 ∧
    (kruskal_wallis (add_data initState ["A","A","A","B","B","B"] [1,2,3,4,5,6]) (1/20)
      (fun _ _ => 0) (fun _ _ => 0)).1 ≠ Except.ok () :=
  ⟨specH_eval_six, by rw [specH_eval_six]; norm_num, by rw [specH_eval_six]; norm_num, by decide⟩

/-- C2 amended: for groups [A,A,A,B,B,B], values [1..6]: the ranks are
[1..6] and the intended group mean ranks are A:2 and B:5 with one degree
of freedom, but the intended H statistic is 27/14 = 1.9285... (below the
0.05 critical value 3.841, hence the intended outcome is a non-rejection),
and the actual `kruskal_wallis` call raises a TypeError before producing
any of these quantities. -/
theorem C2_scenario_amended :
    get_ranks [1,2,3,4,5,6] = [1,2,3,4,5,6] ∧
    specGroupMeans ["A","A","A","B","B","B"] [1,2,3,4,5,6] = [("A", 2), ("B", 5)] ∧
    specH ["A","A","A","B","B","B"] [1,2,3,4,5,6] = 27/14 ∧
    ((["A","A","A","B","B","B"] : List String).dedup.length : ℤ) - 1 = 1 ∧
    ¬ ((3841/1000 : ℚ) ≤ 27/14) ∧
    (kruskal_wallis (add_data initState ["A","A","A","B","B","B"] [1,2,3,4,5,6]) (1/20)
      (fun _ _ => 0) (fun _ _ => 0)).1 = Except.error PyError.typeError :=
  ⟨ranks_eval_six, specMeans_eval_six, specH_eval_six, by decide, by norm_num, by decide⟩

/-- C3: the H formula, degrees of freedom and rejection rule describe what
`calculate_kw_h` and the tail of `kruskal_wallis` would compute, and
`calculate_kw_h` evaluated at the two-group scenario quantities indeed
returns `(N-1)/12 * Σ n_g (M_g - E)^2 / V = 27/14`; but `kruskal_wallis`
never reaches that code: it raises a TypeError on every supplied
observation set, here on a three-group example. -/
theorem C3_formula_never_reached :
    calculate_kw_h ["A","B"] 6 [("A", 2), ("B", 5)] [("A", 3), ("B", 3)] (7/2) (35/12)
        = 27/14 ∧
    specH ["A","B","C"] [1,2,3] = 1/2 ∧
    (kruskal_wallis (add_data initState ["A","B","C"] [1,2,3]) (1/20)
      (fun _ _ => 0) (fun _ _ => 0)).1 = Except.error PyError.typeError := by
  refine ⟨?_, specH_eval_three, by decide⟩
  simp [calculate_kw_h, dictGet]
  norm_num

/-- C4: for every non-empty value sequence the ranks returned by
`get_ranks` sum to N(N+1)/2, ties included. -/
theorem C4_rank_sum (values : List ℤ) (h : values ≠ []) :
    (get_ranks values).sum = (values.length : ℚ) * ((values.length : ℚ) + 1) / 2 :=
  get_ranks_sum values

/-- Witness for C4 on a sequence with a tie. -/
theorem C4_rank_sum_witness :
    ([1, 5, 5, 2] : List ℤ) ≠ [] ∧
    (get_ranks [1, 5, 5, 2]).sum
      = ((([1, 5, 5, 2] : List ℤ).length : ℚ)) * (((([1, 5, 5, 2] : List ℤ).length : ℚ)) + 1) / 2 :=
  ⟨by decide, C4_rank_sum [1, 5, 5, 2] (by decide)⟩

/-- C6: the H statistic is claimed invariant under permutations moving
whole (label, value) pairs.  The intended H is indeed invariant on a
concrete pair-reversal (both sides give 1/20), but `kruskal_wallis`
computes no H at all: it raises a TypeError on both the original and the
permuted data. -/
theorem C6_permutation :
    specH ["A","B","A","B"] [3,3,5,7] = specH ["B","A","B","A"] [7,5,3,3] ∧
    (kruskal_wallis (add_data initState ["A","B","A","B"] [3,3,5,7]) (1/20)
      (fun _ _ => 0) (fun _ _ => 0)).1 = Except.error PyError.typeError ∧
    (kruskal_wallis (add_data initState ["B","A","B","A"] [7,5,3,3]) (1/20)
      (fun _ _ => 0) (fun _ _ => 0)).1 = Except.error PyError.typeError :=
  ⟨specH_eval_perm_a.trans specH_eval_perm_b.symm, by decide, by decide⟩

/-- An evaluator state as it would exist after a successful, rejecting
Kruskal-Wallis run on the two-group scenario (the state the source's
`conover_iman` is written to consume; unreachable in fact, because
`kruskal_wallis` always raises before storing `h_value`). -/
def postKWState : OrdinalTest :=
  { data := some (["A","A","A","B","B","B"], [1,2,3,4,5,6]),
    groups := some ["A","B"],
    alpha := some (1/20),
    group_indices := some (get_group_indices ["A","A","A","B","B","B"] ["A","B"]),
    value_ranks := some [1,2,3,4,5,6],
    group_counts := some [("A", 3), ("B", 3)],
    group_means := some [("A", 2), ("B", 5)],
    degf := some 1,
    h_value := some (27/14),
    critical_value := some (3841/1000),
    p_value := some (1/20),
    outcome := some rejectedMsg,
    conover_results := none }

/-- C7: on any state passing the precondition, the pair loop is claimed to
emit k(k-1)/2 records with the documented statistics.  In fact the first
iteration raises a TypeError at `len(self.group_indices[Ri])` (a
generator), after `self.conover_results` has been initialised to the empty
dict, so no record is ever produced.  The third conjunct records the
combinatorial pair-generation order the claim refers to. -/
theorem C7_conover_crashes :
    (conover_iman postKWState (fun _ _ => 0) (fun _ _ => 0)).1
        = Except.error PyError.typeError ∧
    (conover_iman postKWState (fun _ _ => 0) (fun _ _ => 0)).2.conover_results = some [] ∧
    combinations2 ["A","B","C"] = [("A","B"), ("A","C"), ("B","C")] :=
  ⟨by decide, by decide, by decide⟩

/-- C8: the group index "sets" are claimed to partition 0..N-1 and to
yield counts summing to N.  In fact `get_group_counts` raises a TypeError
on them (first conjunct), and the generators themselves are corrupted by
the late-bound comprehension variable: on labels [A,B,A] (registry
[B,A]) the generators stored under both "B" and "A" yield the positions
[0,2] of the *last* registry group, so position 1 belongs to no group and
positions 0 and 2 to both.  The last conjunct shows the intended index
sets, which do form a partition. -/
theorem C8_group_indices_not_partition :
    get_group_counts ["B","A"] (get_group_indices ["A","B","A"] ["B","A"])
        = Except.error PyError.typeError ∧
    (dictGet (get_group_indices ["A","B","A"] ["B","A"]) ("B")).map genYields
        = some [0, 2] ∧
    (dictGet (get_group_indices ["A","B","A"] ["B","A"]) ("A")).map genYields
        = some [0, 2] ∧
    specGroupIndices ["A","B","A"] = [("B", [1]), ("A", [0, 2])] :=
  ⟨by decide, by decide, by decide, by decide⟩

/-- C9: on all-tied values every rank is (N+1)/2 = 5/2 and the intended H
is exactly 0 (whence the intended outcome would be a non-rejection for any
alpha < 1); but `kruskal_wallis` raises a TypeError on this input too, so
no H value and no outcome are produced. -/
theorem C9_all_tied :
    get_ranks [5,5,5,5] = [5/2, 5/2, 5/2, 5/2] ∧
    specH ["A","B","A","B"] [5,5,5,5] = 0 ∧
    (kruskal_wallis (add_data initState ["A","B","A","B"] [5,5,5,5]) (1/20)
      (fun _ _ => 0) (fun _ _ => 0)).1 = Except.error PyError.typeError :=
  ⟨ranks_eval_tied, specH_eval_tied, by decide⟩

/-- C10 counterexample: after a second `add_data`, a `conover_iman` call on
a state with a stored rejecting outcome does not compute any pairwise
records reusing the stored quantities: it raises a TypeError at
`len(self.group_indices[Ri])`. -/
theorem C10_reuse_counterexample :
    (conover_iman (add_data postKWState ["A","B"] [10, 20]) (fun _ _ => 0) (fun _ _ => 0)).1
      = Except.error PyError.typeError := by
  decide

/-- C10 amended: a second `add_data` replaces the stored observation set
and registry and leaves every other attribute (alpha, group indices,
ranks, counts, means, degf, h_value, critical value, p-value, outcome)
intact; a subsequent `conover_iman` call then passes its precondition
check (it does not raise the sequencing error), but instead of computing
pairwise records from the stored state it raises a TypeError at
`len(self.group_indices[Ri])`, leaving an empty results dict. -/
theorem C10_add_data_then_conover :
    (∀ (t : OrdinalTest) (g : List String) (v : List ℤ),
      (add_data t g v).data = some (g, v) ∧
      (add_data t g v).groups = some g.dedup ∧
      (add_data t g v).alpha = t.alpha ∧
      (add_data t g v).group_indices = t.group_indices ∧
      (add_data t g v).value_ranks = t.value_ranks ∧
      (add_data t g v).group_counts = t.group_counts ∧
      (add_data t g v).group_means = t.group_means ∧
      (add_data t g v).degf = t.degf ∧
      (add_data t g v).h_value = t.h_value ∧
      (add_data t g v).critical_value = t.critical_value ∧
      (add_data t g v).p_value = t.p_value ∧
      (add_data t g v).outcome = t.outcome) ∧
    (conover_iman (add_data postKWState ["A","B"] [10, 20]) (fun _ _ => 0) (fun _ _ => 0)).1
        ≠ Except.error PyError.sequencing ∧
    (conover_iman (add_data postKWState ["A","B"] [10, 20]) (fun _ _ => 0) (fun _ _ => 0)).1
        = Except.error PyError.typeError ∧
    (conover_iman (add_data postKWState ["A","B"] [10, 20]) (fun _ _ => 0)
        (fun _ _ => 0)).2.conover_results = some [] :=
  ⟨fun t g v => ⟨rfl, rfl, rfl, rfl, rfl, rfl, rfl, rfl, rfl, rfl, rfl, rfl⟩,
   by decide, by decide, by decide⟩
